import Mathlib

/-!
A verification development for the knowledge-store subsystem of the
`rust_agent` repository (`src/knowledge/database.rs`, `src/knowledge/loader.rs`,
`src/knowledge/query.rs`, `src/tools/knowledge_fetcher.rs`).

The Rust code is shallowly embedded:

* SQLite tables become lists of row structures inside a `DBState`; the FTS5
  index virtual tables become explicit lists of index entries that are
  maintained exactly as the schema triggers maintain them.  `INSERT OR
  REPLACE` follows SQLite's documented REPLACE conflict-resolution semantics:
  the new row's rowid is allocated first (`max(rowid in table) + 1`, computed
  while the conflicting row still exists, so a replaced row's rowid is never
  re-used), then the conflicting row is deleted *without* firing the
  `AFTER DELETE` trigger (delete triggers fire during REPLACE only when the
  `recursive_triggers` pragma is enabled, which this code never enables), and
  the insert trigger appends the new index entry.
* The `serde_json` text blobs stored in list-valued columns are modelled by
  the tagged type `Blob`: `Blob.ok v` stands for the canonical serialization
  of `v` (faithful because `serde_json::from_str ∘ to_string` is the identity
  for these plain data types), and `Blob.bad s` stands for stored text that
  does not deserialize.
* Rust `f32` confidence arithmetic is modelled with exact rationals.
* `char::to_lowercase` / `is_alphanumeric` and the FTS5 `unicode61`
  tokenizer are modelled on the ASCII fragment via `Char.toLower` /
  `Char.isAlphanum`.
-/

/-! ## Character and token infrastructure (loader.rs `slugify`, FTS5 tokens) -/

/-- One step of the `slugify` character pipeline from `loader.rs`: the string
is lowercased, then alphanumeric characters are kept and every other
character (including whitespace) becomes `'-'`. -/
def normChar (c : Char) : Char :=
  let d := c.toLower
  if d.isAlphanum then d else '-'

/-- Rust `str::split('-')` on a character list: splits at every `'-'`,
keeping empty pieces (so `"-a-"` splits into `["", "a", ""]`). -/
def splitDash : List Char → List (List Char)
  | [] => [[]]
  | c :: rest =>
    match splitDash rest with
    | [] => [[c]]
    | t :: ts => if c = '-' then [] :: t :: ts else (c :: t) :: ts

/-- Rust `Vec::join("-")` on character lists. -/
def joinDash : List (List Char) → List Char
  | [] => []
  | [t] => t
  | t :: t2 :: ts => t ++ '-' :: joinDash (t2 :: ts)

/-- The non-empty alphanumeric runs of a character list after the `slugify`
character mapping; also the token model for the FTS5 `unicode61` tokenizer
(case-folded maximal alphanumeric runs). -/
def tokenizeL (l : List Char) : List (List Char) :=
  (splitDash (l.map normChar)).filter (fun t => !t.isEmpty)

/-- `slugify` from `loader.rs`: lowercase, map non-alphanumerics to `'-'`,
split on `'-'`, drop empty pieces, join with `"-"`. -/
def slugify (s : String) : String :=
  String.mk (joinDash (tokenizeL s.data))

example : slugify "Move Semantics" = "move-semantics" := by decide

example : slugify "Error E0382" = "error-e0382" := by decide

example : slugify "  --Hello,  World!-- " = "hello-world" := by decide

/-! ## Record schema (database.rs struct definitions) -/

/-- `CodeExample` from `database.rs`. -/
structure CodeExample where
  title : String
  code : String
  explanation : String
deriving DecidableEq

/-- `CommandFlag` from `database.rs`. -/
structure CommandFlag where
  flag : String
  description : String
deriving DecidableEq

/-- `KnowledgeConcept` from `database.rs`. -/
structure KnowledgeConcept where
  id : String
  topic : String
  title : String
  explanation : String
  code_examples : List CodeExample
  common_mistakes : List String
  related_concepts : List String
  tags : List String
deriving DecidableEq

/-- `KnowledgePattern` from `database.rs`. -/
structure KnowledgePattern where
  id : String
  name : String
  description : String
  template : String
  when_to_use : String
  when_not_to_use : String
  examples : List CodeExample
deriving DecidableEq

/-- `KnowledgeError` from `database.rs`. -/
structure KnowledgeError where
  error_code : String
  title : String
  explanation : String
  example_bad : String
  example_good : String
  fix_strategies : List String
deriving DecidableEq

/-- `KnowledgeCommand` from `database.rs`. -/
structure KnowledgeCommand where
  tool : String
  command : String
  description : String
  flags : List CommandFlag
  examples : List String
deriving DecidableEq

/-! ## Serialized text blobs

List-valued fields are stored in TEXT columns as `serde_json` strings.  The
codec is modelled by a tagged injection: `Blob.ok v` is the canonical
serialization of `v` (`serde_json::to_string` never fails and
`from_str ∘ to_string = id` for these plain data types), while `Blob.bad s`
is stored text on which `serde_json::from_str` fails with message `s`. -/
inductive Blob (α : Type) where
  | ok : α → Blob α
  | bad : String → Blob α
deriving DecidableEq

/-- `serde_json::from_str` with `?` propagation (used by the `get_*`
point lookups in `database.rs`). -/
def Blob.dec : Blob α → Except String α
  | .ok a => .ok a
  | .bad s => .error s

/-- `serde_json::from_str(...).unwrap_or_default()` (used by every search in
`query.rs`); the `Default` for a `Vec` is the empty list. -/
def Blob.getD : Blob α → α → α
  | .ok a, _ => a
  | .bad _, d => d

/-! ## Table rows and database state (database.rs `init_schema`) -/

/-- A row of the `concepts` table: the SQLite rowid, the scalar TEXT columns
and the four serialized list columns. -/
structure ConceptRow where
  rowid : Nat
  id : String
  topic : String
  title : String
  explanation : String
  code_examples : Blob (List CodeExample)
  common_mistakes : Blob (List String)
  related_concepts : Blob (List String)
  tags : Blob (List String)
deriving DecidableEq

/-- A row of the `concepts_fts` FTS5 index: rowid plus the four indexed
columns, exactly what the `concepts_ai` trigger copies. -/
structure ConceptFtsRow where
  rowid : Nat
  topic : String
  title : String
  explanation : String
  tags : Blob (List String)
deriving DecidableEq

/-- A row of the `patterns` table. -/
structure PatternRow where
  rowid : Nat
  id : String
  name : String
  description : String
  template : String
  when_to_use : String
  when_not_to_use : String
  examples : Blob (List CodeExample)
deriving DecidableEq

/-- A row of the `patterns_fts` FTS5 index (`name, description, when_to_use`). -/
structure PatternFtsRow where
  rowid : Nat
  name : String
  description : String
  when_to_use : String
deriving DecidableEq

/-- A row of the `errors` table (keyed by `error_code`; not FTS-indexed). -/
structure ErrorRow where
  error_code : String
  title : String
  explanation : String
  example_bad : String
  example_good : String
  fix_strategies : Blob (List String)
deriving DecidableEq

/-- A row of the `commands` table (surrogate AUTOINCREMENT key; not
FTS-indexed). -/
structure CommandRow where
  id : Nat
  tool : String
  command : String
  description : String
  flags : Blob (List CommandFlag)
  examples : Blob (List String)
deriving DecidableEq

/-- The state of a `KnowledgeDatabase`: the four primary tables, the two
FTS5 index tables, and the AUTOINCREMENT counter of the `commands` table. -/
structure DBState where
  concepts : List ConceptRow
  conceptsFts : List ConceptFtsRow
  patterns : List PatternRow
  patternsFts : List PatternFtsRow
  errors : List ErrorRow
  commands : List CommandRow
  nextCommandId : Nat
deriving DecidableEq

/-- A freshly initialized database (`new_in_memory` / `new` on an empty
location, after `init_schema`). -/
def emptyDB : DBState :=
  { concepts := [], conceptsFts := [], patterns := [], patternsFts := []
    errors := [], commands := [], nextCommandId := 1 }

/-- SQLite rowid allocation for a table without AUTOINCREMENT: one more than
the largest rowid currently in use (1 on an empty table). -/
def nextRowid (rowids : List Nat) : Nat :=
  rowids.foldr max 0 + 1

/-! ## Database write/read primitives (database.rs) -/

/-- `store_concept`: `INSERT OR REPLACE INTO concepts ...`.  SQLite
allocates the new rowid before REPLACE conflict resolution runs (one more
than the largest rowid in the table while the conflicting row still
exists, so a replaced row's rowid is never re-used); REPLACE then deletes
any row with the same `id` WITHOUT firing the `concepts_ad` delete trigger
(SQLite fires delete triggers during REPLACE conflict resolution only under
`PRAGMA recursive_triggers`, which is never enabled), inserts the new row,
and the `concepts_ai` trigger appends the matching index entry to
`concepts_fts`. -/
def storeConcept (c : KnowledgeConcept) (s : DBState) : DBState :=
  let kept := s.concepts.filter (fun r => r.id != c.id)
  let rid := nextRowid (s.concepts.map (·.rowid))
  let row : ConceptRow :=
    { rowid := rid, id := c.id, topic := c.topic, title := c.title
      explanation := c.explanation, code_examples := .ok c.code_examples
      common_mistakes := .ok c.common_mistakes
      related_concepts := .ok c.related_concepts, tags := .ok c.tags }
  { s with concepts := kept ++ [row]
           conceptsFts := s.conceptsFts ++
             [{ rowid := rid, topic := c.topic, title := c.title
                explanation := c.explanation, tags := .ok c.tags }] }

/-- `get_concept`: point lookup by primary key, decoding the four serialized
columns with `?` propagation in declaration order. -/
def getConcept (s : DBState) (i : String) : Except String (Option KnowledgeConcept) :=
  match s.concepts.find? (fun r => r.id == i) with
  | none => .ok none
  | some r => do
    let ce ← r.code_examples.dec
    let cm ← r.common_mistakes.dec
    let rc ← r.related_concepts.dec
    let tg ← r.tags.dec
    pure (some { id := r.id, topic := r.topic, title := r.title
                 explanation := r.explanation, code_examples := ce
                 common_mistakes := cm, related_concepts := rc, tags := tg })

/-- `store_pattern`: `INSERT OR REPLACE INTO patterns ...`, with the same
rowid-allocated-before-delete REPLACE/trigger semantics as `storeConcept`. -/
def storePattern (p : KnowledgePattern) (s : DBState) : DBState :=
  let kept := s.patterns.filter (fun r => r.id != p.id)
  let rid := nextRowid (s.patterns.map (·.rowid))
  let row : PatternRow :=
    { rowid := rid, id := p.id, name := p.name, description := p.description
      template := p.template, when_to_use := p.when_to_use
      when_not_to_use := p.when_not_to_use, examples := .ok p.examples }
  { s with patterns := kept ++ [row]
           patternsFts := s.patternsFts ++
             [{ rowid := rid, name := p.name, description := p.description
                when_to_use := p.when_to_use }] }

/-- `get_pattern`: point lookup by primary key with strict decoding. -/
def getPattern (s : DBState) (i : String) : Except String (Option KnowledgePattern) :=
  match s.patterns.find? (fun r => r.id == i) with
  | none => .ok none
  | some r => do
    let ex ← r.examples.dec
    pure (some { id := r.id, name := r.name, description := r.description
                 template := r.template, when_to_use := r.when_to_use
                 when_not_to_use := r.when_not_to_use, examples := ex })

/-- `store_error`: `INSERT OR REPLACE INTO errors ...` (no FTS index). -/
def storeError (e : KnowledgeError) (s : DBState) : DBState :=
  let kept := s.errors.filter (fun r => r.error_code != e.error_code)
  let row : ErrorRow :=
    { error_code := e.error_code, title := e.title, explanation := e.explanation
      example_bad := e.example_bad, example_good := e.example_good
      fix_strategies := .ok e.fix_strategies }
  { s with errors := kept ++ [row] }

/-- `get_error`: point lookup by error code with strict decoding. -/
def getError (s : DBState) (code : String) : Except String (Option KnowledgeError) :=
  match s.errors.find? (fun r => r.error_code == code) with
  | none => .ok none
  | some r => do
    let fs ← r.fix_strategies.dec
    pure (some { error_code := r.error_code, title := r.title
                 explanation := r.explanation, example_bad := r.example_bad
                 example_good := r.example_good, fix_strategies := fs })

/-- `store_command`: plain `INSERT` (no dedup); returns `last_insert_rowid`. -/
def storeCommand (c : KnowledgeCommand) (s : DBState) : DBState × Nat :=
  let row : CommandRow :=
    { id := s.nextCommandId, tool := c.tool, command := c.command
      description := c.description, flags := .ok c.flags
      examples := .ok c.examples }
  ({ s with commands := s.commands ++ [row]
            nextCommandId := s.nextCommandId + 1 }, s.nextCommandId)

/-- `count_concepts`: `SELECT COUNT(*) FROM concepts`. -/
def countConcepts (s : DBState) : Nat := s.concepts.length

/-- `count_patterns`. -/
def countPatterns (s : DBState) : Nat := s.patterns.length

/-- `count_errors`. -/
def countErrors (s : DBState) : Nat := s.errors.length

/-- `count_commands`. -/
def countCommands (s : DBState) : Nat := s.commands.length

/-! ## Query layer (query.rs) -/

/-- Row-to-record conversion used by `search_concepts` / `search_by_topic`:
every serialized column is decoded with `unwrap_or_default()`, silently
substituting the empty list on malformed text. -/
def rowToConceptLenient (r : ConceptRow) : KnowledgeConcept :=
  { id := r.id, topic := r.topic, title := r.title, explanation := r.explanation
    code_examples := r.code_examples.getD []
    common_mistakes := r.common_mistakes.getD []
    related_concepts := r.related_concepts.getD []
    tags := r.tags.getD [] }

/-- Row-to-record conversion used by `find_patterns`. -/
def rowToPatternLenient (r : PatternRow) : KnowledgePattern :=
  { id := r.id, name := r.name, description := r.description
    template := r.template, when_to_use := r.when_to_use
    when_not_to_use := r.when_not_to_use, examples := r.examples.getD [] }

/-- Row-to-record conversion used by `search_commands` / `get_tool_commands`. -/
def rowToCommandLenient (r : CommandRow) : KnowledgeCommand :=
  { tool := r.tool, command := r.command, description := r.description
    flags := r.flags.getD [], examples := r.examples.getD [] }

/-- The tokens FTS5 extracts from a stored TEXT column.  For a well-formed
serialized list the JSON punctuation (quotes, brackets, commas, backslashes)
separates tokens, so the tokens are those of the list elements. -/
def blobTokens (b : Blob (List String)) : List (List Char) :=
  match b with
  | .ok l => l.foldr (fun s acc => tokenizeL s.data ++ acc) []
  | .bad s => tokenizeL s.data

/-- The token set of a `concepts_fts` index entry (columns
`topic, title, explanation, tags`). -/
def conceptFtsTokens (f : ConceptFtsRow) : List (List Char) :=
  tokenizeL f.topic.data ++ tokenizeL f.title.data ++
    tokenizeL f.explanation.data ++ blobTokens f.tags

/-- The token set of a `patterns_fts` index entry (columns
`name, description, when_to_use`). -/
def patternFtsTokens (f : PatternFtsRow) : List (List Char) :=
  tokenizeL f.name.data ++ tokenizeL f.description.data ++
    tokenizeL f.when_to_use.data

/-- FTS5 `MATCH`: the query is tokenized like the indexed text; a non-empty
token conjunction matches an index entry when every query token occurs among
the entry's tokens. -/
def ftsMatch (q : String) (toks : List (List Char)) : Bool :=
  let qs := tokenizeL q.data
  (!qs.isEmpty) && qs.all (fun t => decide (t ∈ toks))

/-- The joined rows of
`concepts c JOIN concepts_fts fts ON c.rowid = fts.rowid WHERE concepts_fts MATCH q`:
for each matching index entry, the concept row with the same rowid (an
orphaned index entry whose rowid is no longer in the table contributes
nothing). -/
def conceptJoinRows (s : DBState) (q : String) : List ConceptRow :=
  (s.conceptsFts.filter (fun f => ftsMatch q (conceptFtsTokens f))).filterMap
    (fun f => s.concepts.find? (fun r => r.rowid == f.rowid))

/-- `search_concepts_limit`: full-text match, `LIMIT ?2`, lenient decoding. -/
def searchConceptsLimit (s : DBState) (q : String) (limit : Nat) : List KnowledgeConcept :=
  ((conceptJoinRows s q).take limit).map rowToConceptLenient

/-- `search_concepts`: default limit 10. -/
def searchConcepts (s : DBState) (q : String) : List KnowledgeConcept :=
  searchConceptsLimit s q 10

/-- `search_by_topic`: exact match on the `topic` column, lenient decoding. -/
def searchByTopic (s : DBState) (topic : String) : List KnowledgeConcept :=
  (s.concepts.filter (fun r => r.topic == topic)).map rowToConceptLenient

/-- The joined rows of the `patterns` FTS query. -/
def patternJoinRows (s : DBState) (q : String) : List PatternRow :=
  (s.patternsFts.filter (fun f => ftsMatch q (patternFtsTokens f))).filterMap
    (fun f => s.patterns.find? (fun r => r.rowid == f.rowid))

/-- `find_patterns_limit`. -/
def findPatternsLimit (s : DBState) (q : String) (limit : Nat) : List KnowledgePattern :=
  ((patternJoinRows s q).take limit).map rowToPatternLenient

/-- `find_patterns`: default limit 10. -/
def findPatterns (s : DBState) (q : String) : List KnowledgePattern :=
  findPatternsLimit s q 10

/-- `explain_error` (the query layer delegates to `get_error`). -/
def explainError (s : DBState) (code : String) : Except String (Option KnowledgeError) :=
  getError s code

/-- Does `pre` start the list `l`? (Rust `str::starts_with` on chars.) -/
def startsWithL : List Char → List Char → Bool
  | [], _ => true
  | _ :: _, [] => false
  | a :: as, b :: bs => a == b && startsWithL as bs

/-- Does `sub` occur contiguously inside `l`? (Rust `str::contains`.) -/
def containsL (sub : List Char) : List Char → Bool
  | [] => sub.isEmpty
  | l@(_ :: rest) => startsWithL sub l || containsL sub rest

/-- SQLite `LIKE '%keyword%'` (default ASCII case-insensitive collation). -/
def likeContains (hay keyword : String) : Bool :=
  containsL (keyword.data.map Char.toLower) (hay.data.map Char.toLower)

/-- `search_commands`: exact match on `tool`, `LIKE '%keyword%'` on
`command` or `description`, `LIMIT 20`, lenient decoding. -/
def searchCommands (s : DBState) (tool keyword : String) : List KnowledgeCommand :=
  ((s.commands.filter (fun r =>
      r.tool == tool &&
        (likeContains r.command keyword || likeContains r.description keyword))).take 20).map
    rowToCommandLenient

/-- `get_tool_commands`: all rows with the given tool, lenient decoding. -/
def getToolCommands (s : DBState) (tool : String) : List KnowledgeCommand :=
  (s.commands.filter (fun r => r.tool == tool)).map rowToCommandLenient

/-- `SearchResults` from `query.rs`. -/
structure SearchResults where
  concepts : List KnowledgeConcept
  patterns : List KnowledgePattern
  commands : List KnowledgeCommand
deriving DecidableEq

/-- `SearchResults::is_empty`. -/
def SearchResults.isEmptyR (r : SearchResults) : Bool :=
  r.concepts.isEmpty && r.patterns.isEmpty && r.commands.isEmpty

/-- `SearchResults::total`. -/
def SearchResults.total (r : SearchResults) : Nat :=
  r.concepts.length + r.patterns.length + r.commands.length

/-- `search_all`: top 5 concepts, top 5 patterns, commands intentionally
empty (they are not FTS-indexed).  A pure read: it takes the state and
returns results without producing a new state. -/
def searchAll (s : DBState) (q : String) : SearchResults :=
  { concepts := searchConceptsLimit s q 5
    patterns := findPatternsLimit s q 5
    commands := [] }

/-- `SearchResults::format` (Markdown-like rendering; sections with zero
entries are omitted). -/
def SearchResults.format (r : SearchResults) : String :=
  let conceptPart :=
    if r.concepts.isEmpty then "" else
      "## Concepts\n\n" ++ String.join (r.concepts.map (fun c =>
        "### " ++ c.title ++ "\n" ++ "**Topic:** " ++ c.topic ++ "\n\n" ++
          c.explanation ++ "\n\n" ++
          (if c.code_examples.isEmpty then "" else
            "**Examples:**\n" ++ String.join (c.code_examples.map (fun ex =>
              "\n**" ++ ex.title ++ ":**\n```rust\n" ++ ex.code ++ "\n```\n" ++
                ex.explanation ++ "\n")) ++ "\n")))
  let patternPart :=
    if r.patterns.isEmpty then "" else
      "## Patterns\n\n" ++ String.join (r.patterns.map (fun p =>
        "### " ++ p.name ++ "\n" ++ p.description ++ "\n\n" ++
          "**When to use:** " ++ p.when_to_use ++ "\n\n" ++
          "```rust\n" ++ p.template ++ "\n```\n\n"))
  let commandPart :=
    if r.commands.isEmpty then "" else
      "## Commands\n\n" ++ String.join (r.commands.map (fun c =>
        "### " ++ c.tool ++ " " ++ c.command ++ "\n" ++ c.description ++ "\n\n" ++
          (if c.examples.isEmpty then "" else
            "**Examples:**\n" ++ String.join (c.examples.map (fun e =>
              "- `" ++ e ++ "`\n")) ++ "\n")))
  conceptPart ++ patternPart ++ commandPart

/-! ## Loader (loader.rs): untyped JSON tree traversal -/

/-- `serde_json::Value`, restricted to what the loader inspects. -/
inductive Json where
  | null : Json
  | bool : Bool → Json
  | num : Int → Json
  | str : String → Json
  | arr : List Json → Json
  | obj : List (String × Json) → Json

/-- `Value::index` (`data["key"]`): field lookup on an object, `Null` on a
missing key or a non-object. -/
def Json.get (j : Json) (k : String) : Json :=
  match j with
  | .obj fs =>
    match fs.find? (fun p => p.1 == k) with
    | some p => p.2
    | none => .null
  | _ => .null

/-- `Value::as_str`. -/
def Json.asStr : Json → Option String
  | .str s => some s
  | _ => none

/-- `Value::as_array`. -/
def Json.asArr : Json → Option (List Json)
  | .arr l => some l
  | _ => none

/-- The `KnowledgeConcept` built by the inner loop of `load_core_concepts`
for one concept element of a module: note the id is
`format!("{}-{}", module_id, slugify(concept_name))` — the module id is used
verbatim while only the concept name is slugified. -/
def conceptRecordOf (moduleId : String) (concept : Json) : KnowledgeConcept :=
  let conceptName := (concept.get "name").asStr.getD "Unnamed"
  let codeExamples :=
    match (concept.get "examples").asArr with
    | some exs => exs.map (fun ex =>
        { title := (ex.get "title").asStr.getD ""
          code := (ex.get "code").asStr.getD ""
          explanation := (ex.get "explanation").asStr.getD "" : CodeExample })
    | none => []
  let commonMistakes :=
    match (concept.get "common_errors").asArr with
    | some errs => errs.filterMap (fun e => e.asStr)
    | none => []
  let base := (concept.get "description").asStr.getD ""
  let withRules :=
    match (concept.get "rules").asArr with
    | some rules =>
      base ++ "\n\nRules:\n" ++
        String.join (rules.map (fun r =>
          match r.asStr with
          | some t => "- " ++ t ++ "\n"
          | none => ""))
    | none => base
  let withKeyPoints :=
    match (concept.get "key_points").asArr with
    | some points =>
      withRules ++ "\n\nKey Points:\n" ++
        String.join (points.map (fun p =>
          match p.asStr with
          | some t => "- " ++ t ++ "\n"
          | none => ""))
    | none => withRules
  { id := moduleId ++ "-" ++ slugify conceptName
    topic := moduleId
    title := conceptName
    explanation := withKeyPoints
    code_examples := codeExamples
    common_mistakes := commonMistakes
    related_concepts := []
    tags := [moduleId, moduleId] }

/-- The module id extracted by `load_core_concepts`. -/
def moduleIdOf (module : Json) : String :=
  (module.get "id").asStr.getD "unknown"

/-- The concepts array of a module (empty when absent). -/
def moduleConcepts (module : Json) : List Json :=
  ((module.get "concepts").asArr).getD []

/-- The modules array of a concepts document (empty when absent). -/
def docModules (doc : Json) : List Json :=
  ((doc.get "modules").asArr).getD []

/-- All the concept records a concepts document makes the loader store, in
storage order. -/
def docConceptRecords (doc : Json) : List KnowledgeConcept :=
  (docModules doc).foldr
    (fun m acc => (moduleConcepts m).map (conceptRecordOf (moduleIdOf m)) ++ acc) []

/-- `load_core_concepts` on an already-parsed document: store every concept
of every module, returning the new state and the count. -/
def loadCoreConcepts (doc : Json) (s : DBState) : DBState × Nat :=
  ((docConceptRecords doc).foldl (fun st c => storeConcept c st) s,
    (docConceptRecords doc).length)

/-- The `KnowledgePattern` built by the inner loop of `load_patterns`: both
the category name and the pattern name are slugified for the id. -/
def patternRecordOf (categoryName : String) (pattern : Json) : KnowledgePattern :=
  let patternName := (pattern.get "name").asStr.getD "Unnamed"
  let examples :=
    match (pattern.get "example").asStr with
    | some ex =>
      [{ title := patternName, code := ex
         explanation := (pattern.get "description").asStr.getD "" : CodeExample }]
    | none => []
  { id := slugify categoryName ++ "-" ++ slugify patternName
    name := patternName
    description := (pattern.get "description").asStr.getD ""
    template := (pattern.get "example").asStr.getD ""
    when_to_use := categoryName
    when_not_to_use := ""
    examples := examples }

/-- The category name extracted by `load_patterns`. -/
def categoryNameOf (category : Json) : String :=
  (category.get "name").asStr.getD "Unknown"

/-- All the pattern records a patterns document makes the loader store. -/
def docPatternRecords (doc : Json) : List KnowledgePattern :=
  (((doc.get "categories").asArr).getD []).foldr
    (fun cat acc =>
      (((cat.get "patterns").asArr).getD []).map
        (patternRecordOf (categoryNameOf cat)) ++ acc) []

/-- `load_patterns` on an already-parsed document. -/
def loadPatterns (doc : Json) (s : DBState) : DBState × Nat :=
  ((docPatternRecords doc).foldl (fun st p => storePattern p st) s,
    (docPatternRecords doc).length)

/-- Tool-name inference of `load_commands`: substring match on the section
name (`"Cargo"` → `cargo`, `"Rustup"` → `rustup`, generic fallback `rust`). -/
def toolOfSection (sectionName : String) : String :=
  if containsL "Cargo".data sectionName.data then "cargo"
  else if containsL "Rustup".data sectionName.data then "rustup"
  else "rust"

/-- Rust `opt_str.splitn(2, " - ")`: split at the first occurrence of the
separator, if any. -/
def splitOnceSep (sep : List Char) : List Char → Option (List Char × List Char)
  | [] => none
  | c :: rest =>
    if startsWithL sep (c :: rest) then some ([], (c :: rest).drop sep.length)
    else
      match splitOnceSep sep rest with
      | some (pre, post) => some (c :: pre, post)
      | none => none

/-- One `"<flag> - <description>"` option string parsed by `load_commands`:
split on the first `" - "`, trimming both parts; an option without the
separator becomes a flag with an empty description. -/
def flagOfOption (optStr : String) : CommandFlag :=
  match splitOnceSep " - ".data optStr.data with
  | some (pre, post) =>
    { flag := (String.mk pre).trim, description := (String.mk post).trim }
  | none => { flag := optStr, description := "" }

/-- The `KnowledgeCommand` built by the inner loop of `load_commands`. -/
def commandRecordOf (tool : String) (cmd : Json) : KnowledgeCommand :=
  let flags :=
    match (cmd.get "options").asArr with
    | some opts => opts.filterMap (fun opt => (opt.asStr).map flagOfOption)
    | none => []
  let examples :=
    match (cmd.get "examples").asArr with
    | some exs => exs.filterMap (fun e => e.asStr)
    | none => []
  { tool := tool
    command := (cmd.get "command").asStr.getD ""
    description := (cmd.get "description").asStr.getD ""
    flags := flags
    examples := examples }

/-- All the command records a commands document makes the loader store. -/
def docCommandRecords (doc : Json) : List KnowledgeCommand :=
  (((doc.get "sections").asArr).getD []).foldr
    (fun sec acc =>
      (((sec.get "commands").asArr).getD []).map
        (commandRecordOf (toolOfSection ((sec.get "name").asStr.getD "Unknown"))) ++ acc) []

/-- `load_commands` on an already-parsed document. -/
def loadCommands (doc : Json) (s : DBState) : DBState × Nat :=
  ((docCommandRecords doc).foldl (fun st c => (storeCommand c st).1) s,
    (docCommandRecords doc).length)

/-- `LoadStats` from `loader.rs`. -/
structure LoadStats where
  concepts : Nat
  patterns : Nat
  errors : Nat
  commands : Nat
deriving DecidableEq

/-- `LoadStats::total`. -/
def LoadStats.total (st : LoadStats) : Nat :=
  st.concepts + st.patterns + st.errors + st.commands

/-- The contents of one of the three well-known source files: either text
that parses as JSON (`parsed`) or text on which `serde_json::from_str`
fails (`malformed`). -/
inductive FileContent where
  | parsed : Json → FileContent
  | malformed : String → FileContent

/-- The knowledge directory seen by `load_all_from_directory`: each
well-known file is present (`some`) or missing (`none`). -/
structure Dir where
  coreConcepts : Option FileContent
  patternsIdioms : Option FileContent
  toolchainCargo : Option FileContent

/-- One `if path.exists() { stats.x += self.load_x(&path)? }` step: a missing
file contributes zero, a malformed file propagates the parse error. -/
def loadOptFile (content : Option FileContent)
    (load : Json → DBState → DBState × Nat) (s : DBState) :
    Except String (DBState × Nat) :=
  match content with
  | none => .ok (s, 0)
  | some (.parsed j) => .ok (load j s)
  | some (.malformed e) => .error e

/-- `load_all_from_directory`: load `rust_core_concepts.json`, then
`rust_patterns_idioms.json`, then `rust_toolchain_cargo.json`; the loader
never touches `stats.errors`. -/
def loadAllFromDirectory (d : Dir) (s : DBState) :
    Except String (DBState × LoadStats) := do
  let (s1, nc) ← loadOptFile d.coreConcepts loadCoreConcepts s
  let (s2, np) ← loadOptFile d.patternsIdioms loadPatterns s1
  let (s3, ncmd) ← loadOptFile d.toolchainCargo loadCommands s2
  pure (s3, { concepts := nc, patterns := np, errors := 0, commands := ncmd })

/-! ## Knowledge fetcher (tools/knowledge_fetcher.rs) -/

/-- `KnowledgeFetchRequest`. -/
inductive KnowledgeFetchRequest where
  | explainConcept : String → KnowledgeFetchRequest
  | findPattern : String → KnowledgeFetchRequest
  | explainError : String → KnowledgeFetchRequest
  | findCommand : String → String → KnowledgeFetchRequest
  | search : String → KnowledgeFetchRequest

/-- `calculate_confidence` as a function of the result count alone
(`f32` arithmetic modelled with exact rationals; `0.08 = 2/25` exactly). -/
def calcConfidence (total : Nat) : ℚ :=
  if total = 0 then 0.0
  else if total ≥ 5 then 0.9
  else 0.5 + (total : ℚ) * 0.08

/-- `KnowledgeResponse::calculate_confidence`. -/
def calculateConfidence (results : SearchResults) : ℚ :=
  calcConfidence results.total

/-- `KnowledgeResponse`. -/
structure KnowledgeResponse where
  request : KnowledgeFetchRequest
  results : SearchResults
  formatted : String
  confidence : ℚ

/-- `KnowledgeFetcher::fetch`: build the per-request `SearchResults` (the
`ExplainError` arm looks the error up but discards it, returning empty
results in both branches), then format and score. -/
def fetch (s : DBState) (request : KnowledgeFetchRequest) :
    Except String KnowledgeResponse := do
  let results ← match request with
    | .explainConcept topic =>
      pure { concepts := searchConcepts s topic, patterns := [], commands := []
             : SearchResults }
    | .findPattern useCase =>
      pure { concepts := [], patterns := findPatterns s useCase, commands := []
             : SearchResults }
    | .explainError errorCode => do
      let errOpt ← explainError s errorCode
      match errOpt with
      | some _ => pure { concepts := [], patterns := [], commands := [] : SearchResults }
      | none => pure { concepts := [], patterns := [], commands := [] : SearchResults }
    | .findCommand tool action =>
      pure { concepts := [], patterns := [], commands := searchCommands s tool action
             : SearchResults }
    | .search query => pure (searchAll s query)
  pure { request := request, results := results
         formatted := results.format, confidence := calculateConfidence results }

/-! ## Helper lemmas about keyed lists -/

theorem find?_filter_append_self {α : Type} (p : α → Bool) (l : List α) (a : α)
    (ha : p a = true) :
    ((l.filter (fun x => !(p x))) ++ [a]).find? p = some a := by
  induction l with
  | nil => simp [List.find?, ha]
  | cons b l ih =>
    by_cases hb : p b = true
    · simp [List.filter_cons, hb, ih]
    · simp only [Bool.not_eq_true] at hb
      simp [List.filter_cons, hb, List.find?, ih]

theorem filter_bne_idem {α : Type} (p : α → Bool) (l : List α) :
    (l.filter (fun x => !(p x))).filter (fun x => !(p x)) =
      l.filter (fun x => !(p x)) := by
  induction l with
  | nil => rfl
  | cons b l ih =>
    by_cases hb : p b = true
    · simp [List.filter_cons, hb, ih]
    · simp only [Bool.not_eq_true] at hb
      simp [List.filter_cons, hb, ih]

theorem filter_bne_eq_self {α : Type} (p : α → Bool) (l : List α)
    (h : ∀ a ∈ l, p a = false) :
    l.filter (fun x => !(p x)) = l := by
  induction l with
  | nil => rfl
  | cons b l ih =>
    simp [List.filter_cons, h b (List.mem_cons_self b l),
      ih (fun a ha => h a (List.mem_cons_of_mem b ha))]

/-! ## Store/get round trip (C3) -/

theorem find?_const_false {α : Type} (l : List α) :
    l.find? (fun _ => false) = none := by
  induction l with
  | nil => rfl
  | cons b l ih => simp [List.find?, ih]

theorem getConcept_storeConcept (s : DBState) (c : KnowledgeConcept) :
    getConcept (storeConcept c s) c.id = .ok (some c) := by
  simp [getConcept, storeConcept, Blob.dec, find?_const_false, Option.or, bind, Except.bind, pure, Except.pure]

theorem getPattern_storePattern (s : DBState) (p : KnowledgePattern) :
    getPattern (storePattern p s) p.id = .ok (some p) := by
  simp [getPattern, storePattern, Blob.dec, find?_const_false, Option.or, bind, Except.bind, pure, Except.pure]

theorem getError_storeError (s : DBState) (e : KnowledgeError) :
    getError (storeError e s) e.error_code = .ok (some e) := by
  simp [getError, storeError, Blob.dec, find?_const_false, Option.or, bind, Except.bind, pure, Except.pure]

/-- C3: for every `Concept`, `Pattern` and `Error` value and every prior
database state, storing the value and reading it back by its primary key
returns `Some` of an equal value, all nested list fields included: the
serialize/store/read/deserialize round trip is exact. -/
theorem c3_store_get_round_trip (s : DBState) (c : KnowledgeConcept)
    (p : KnowledgePattern) (e : KnowledgeError) :
    getConcept (storeConcept c s) c.id = .ok (some c)
    ∧ getPattern (storePattern p s) p.id = .ok (some p)
    ∧ getError (storeError e s) e.error_code = .ok (some e) :=
  ⟨getConcept_storeConcept s c, getPattern_storePattern s p,
    getError_storeError s e⟩

/-! ## Upsert semantics (C4) -/

theorem filter_store_shape {α : Type} (p : α → Bool) (l : List α) (a : α)
    (ha : p a = true) :
    ((l.filter (fun x => !(p x))) ++ [a]).filter (fun x => !(p x)) =
      l.filter (fun x => !(p x)) := by
  simp [List.filter_append, filter_bne_idem, List.filter, ha]

theorem countConcepts_storeConcept (s : DBState) (c : KnowledgeConcept) :
    countConcepts (storeConcept c s) =
      (s.concepts.filter (fun r => r.id != c.id)).length + 1 := by
  simp [countConcepts, storeConcept]

theorem countConcepts_storeConcept_twice (s : DBState) (c c2 : KnowledgeConcept)
    (h : c2.id = c.id) :
    countConcepts (storeConcept c2 (storeConcept c s)) =
      countConcepts (storeConcept c s) := by
  have hsh := filter_store_shape (fun r : ConceptRow => r.id == c.id) s.concepts
    { rowid := nextRowid (s.concepts.map (·.rowid))
      id := c.id, topic := c.topic, title := c.title
      explanation := c.explanation, code_examples := .ok c.code_examples
      common_mistakes := .ok c.common_mistakes
      related_concepts := .ok c.related_concepts, tags := .ok c.tags }
    (by simp)
  simp only [bne] at hsh
  simp [countConcepts, storeConcept, h, hsh]

theorem countPatterns_storePattern (s : DBState) (p : KnowledgePattern) :
    countPatterns (storePattern p s) =
      (s.patterns.filter (fun r => r.id != p.id)).length + 1 := by
  simp [countPatterns, storePattern]

theorem countPatterns_storePattern_twice (s : DBState) (p p2 : KnowledgePattern)
    (h : p2.id = p.id) :
    countPatterns (storePattern p2 (storePattern p s)) =
      countPatterns (storePattern p s) := by
  have hsh := filter_store_shape (fun r : PatternRow => r.id == p.id) s.patterns
    { rowid := nextRowid (s.patterns.map (·.rowid))
      id := p.id, name := p.name, description := p.description
      template := p.template, when_to_use := p.when_to_use
      when_not_to_use := p.when_not_to_use, examples := .ok p.examples }
    (by simp)
  simp only [bne] at hsh
  simp [countPatterns, storePattern, h, hsh]

theorem filter_bne_key_of_not_mem {α : Type} (key : α → String) (k : String)
    (l : List α) (h : k ∉ l.map key) :
    l.filter (fun x => key x != k) = l := by
  apply filter_bne_eq_self (fun x => key x == k)
  intro a ha
  have : key a ≠ k := fun hk => h (hk ▸ List.mem_map_of_mem key ha)
  simpa using this

/-- C4 (amended): re-storing an id replaces the record rather than
appending: the second store of an id leaves the count unchanged, the count
is one greater than before the two calls whenever the id was not already
present, and the point lookup returns the last-stored value; likewise for
patterns. -/
theorem c4_upsert_not_append (s : DBState) (c c2 : KnowledgeConcept)
    (p p2 : KnowledgePattern) (hc : c2.id = c.id) (hp : p2.id = p.id)
    (hcfresh : c.id ∉ s.concepts.map ConceptRow.id)
    (hpfresh : p.id ∉ s.patterns.map PatternRow.id) :
    countConcepts (storeConcept c2 (storeConcept c s)) =
        countConcepts (storeConcept c s)
    ∧ countConcepts (storeConcept c2 (storeConcept c s)) = countConcepts s + 1
    ∧ getConcept (storeConcept c2 (storeConcept c s)) c.id = .ok (some c2)
    ∧ countPatterns (storePattern p2 (storePattern p s)) =
        countPatterns (storePattern p s)
    ∧ countPatterns (storePattern p2 (storePattern p s)) = countPatterns s + 1
    ∧ getPattern (storePattern p2 (storePattern p s)) p.id = .ok (some p2) := by
  have hc1 : countConcepts (storeConcept c s) = countConcepts s + 1 := by
    rw [countConcepts_storeConcept,
      filter_bne_key_of_not_mem ConceptRow.id c.id s.concepts hcfresh]
    rfl
  have hp1 : countPatterns (storePattern p s) = countPatterns s + 1 := by
    rw [countPatterns_storePattern,
      filter_bne_key_of_not_mem PatternRow.id p.id s.patterns hpfresh]
    rfl
  refine ⟨countConcepts_storeConcept_twice s c c2 hc, ?_, ?_, ?_, ?_, ?_⟩
  · rw [countConcepts_storeConcept_twice s c c2 hc, hc1]
  · rw [← hc, getConcept_storeConcept]
  · exact countPatterns_storePattern_twice s p p2 hp
  · rw [countPatterns_storePattern_twice s p p2 hp, hp1]
  · rw [← hp, getPattern_storePattern]

/-- Concrete concept used in the C4 falsification and witness. -/
def c4Concept : KnowledgeConcept :=
  { id := "ownership-move", topic := "ownership", title := "Move Semantics"
    explanation := "moves", code_examples := [], common_mistakes := []
    related_concepts := [], tags := ["ownership"] }

/-- Concrete pattern used in the C4 falsification and witness. -/
def c4Pattern : KnowledgePattern :=
  { id := "builder", name := "Builder Pattern", description := "step by step"
    template := "impl Builder {}", when_to_use := "many options"
    when_not_to_use := "", examples := [] }

/-- C4 counterexample: from a state that already contains `x.id`, the two
stores leave `count_concepts()` unchanged (1, not the claimed 1 + 1): the
claim's "exactly one greater than before the two calls" does not hold for
every prior state, only when the id is not already present. -/
theorem c4_counterexample :
    countConcepts (storeConcept c4Concept
        (storeConcept c4Concept (storeConcept c4Concept emptyDB))) = 1
    ∧ countConcepts (storeConcept c4Concept emptyDB) = 1 := by
  constructor
  · rfl
  · rfl

/-- C4 witness: the amended theorem applied to the fresh empty database. -/
theorem c4_witness :
    countConcepts (storeConcept c4Concept (storeConcept c4Concept emptyDB)) =
        countConcepts (storeConcept c4Concept emptyDB)
    ∧ countConcepts (storeConcept c4Concept (storeConcept c4Concept emptyDB)) =
        countConcepts emptyDB + 1
    ∧ getConcept (storeConcept c4Concept (storeConcept c4Concept emptyDB))
        c4Concept.id = .ok (some c4Concept)
    ∧ countPatterns (storePattern c4Pattern (storePattern c4Pattern emptyDB)) =
        countPatterns (storePattern c4Pattern emptyDB)
    ∧ countPatterns (storePattern c4Pattern (storePattern c4Pattern emptyDB)) =
        countPatterns emptyDB + 1
    ∧ getPattern (storePattern c4Pattern (storePattern c4Pattern emptyDB))
        c4Pattern.id = .ok (some c4Pattern) :=
  c4_upsert_not_append emptyDB c4Concept c4Concept c4Pattern c4Pattern rfl rfl
    (by decide) (by decide)

/-! ## Confidence scoring (C5) -/

/-- C5: the confidence score depends on `total()` alone; it is `0.0` at zero
results, `0.9` at five or more, `0.5 + 0.08 * total` in between, and it is
monotone in the result count. -/
theorem c5_confidence_of_total :
    calcConfidence 0 = 0.0
    ∧ (∀ n, 5 ≤ n → calcConfidence n = 0.9)
    ∧ (∀ n, 0 < n → n < 5 → calcConfidence n = 0.5 + 0.08 * (n : ℚ))
    ∧ (∀ a b : Nat, a < b → calcConfidence a ≤ calcConfidence b)
    ∧ (∀ r : SearchResults, calculateConfidence r = calcConfidence r.total) := by
  refine ⟨rfl, ?_, ?_, ?_, fun _ => rfl⟩
  · intro n h5
    have hn0 : n ≠ 0 := by omega
    rw [calcConfidence, if_neg hn0, if_pos h5]
  · intro n hn0 hn5
    rw [calcConfidence, if_neg (by omega : ¬n = 0), if_neg (by omega : ¬n ≥ 5)]
    ring
  · intro a b hab
    rcases Nat.eq_zero_or_pos a with ha0 | hapos
    · subst ha0
      have hb0 : ¬b = 0 := by omega
      rw [calcConfidence, calcConfidence, if_pos rfl, if_neg hb0]
      by_cases hb5 : b ≥ 5
      · rw [if_pos hb5]; norm_num
      · rw [if_neg hb5]
        have hcast : (0 : ℚ) ≤ (b : ℚ) := by positivity
        norm_num
        linarith
    · have ha0 : ¬a = 0 := by omega
      have hb0 : ¬b = 0 := by omega
      rw [calcConfidence, calcConfidence, if_neg ha0, if_neg hb0]
      by_cases ha5 : a ≥ 5
      · rw [if_pos ha5, if_pos (by omega : b ≥ 5)]
      · rw [if_neg ha5]
        by_cases hb5 : b ≥ 5
        · rw [if_pos hb5]
          have h4 : (a : ℚ) ≤ 4 := by exact_mod_cast (by omega : a ≤ 4)
          norm_num
          linarith
        · rw [if_neg hb5]
          have hle : (a : ℚ) ≤ (b : ℚ) := by exact_mod_cast Nat.le_of_lt hab
          have h8 : (0 : ℚ) < 0.08 := by norm_num
          nlinarith

/-- C5 witness: the pieces of the confidence theorem at concrete counts. -/
theorem c5_witness :
    calcConfidence 7 = 0.9
    ∧ calcConfidence 2 = 0.5 + 0.08 * (2 : ℚ)
    ∧ calcConfidence 1 ≤ calcConfidence 4 :=
  ⟨c5_confidence_of_total.2.1 7 (by decide),
    c5_confidence_of_total.2.2.1 2 (by decide) (by decide),
    c5_confidence_of_total.2.2.2.1 1 4 (by decide)⟩

/-! ## search_all bounds (C7) -/

/-- C7: for every database state and every query, `search_all` returns at
most 5 concepts, at most 5 patterns, and an always-empty commands list; it
is a pure read on the state (its type returns only results, no new state),
so no record is mutated. -/
theorem c7_search_all_bounds (s : DBState) (q : String) :
    (searchAll s q).concepts.length ≤ 5
    ∧ (searchAll s q).patterns.length ≤ 5
    ∧ (searchAll s q).commands = [] := by
  refine ⟨?_, ?_, rfl⟩
  · simp only [searchAll, searchConceptsLimit, List.length_map, List.length_take]
    omega
  · simp only [searchAll, findPatternsLimit, List.length_map, List.length_take]
    omega

/-! ## Fetcher discards looked-up errors (C10) -/

/-- C10: for every state and error code, `fetch` on an `ExplainError`
request yields a response with no concepts, no patterns, no commands and
confidence `0.0` — even when `explain_error` finds the error record (the
fetch arm looks it up and discards it). -/
theorem c10_fetch_explain_error_empty (s : DBState) (code : String)
    (e : KnowledgeError) (h : explainError s code = .ok (some e)) :
    ∃ resp, fetch s (.explainError code) = .ok resp
      ∧ resp.results.concepts = []
      ∧ resp.results.patterns = []
      ∧ resp.results.commands = []
      ∧ resp.confidence = 0.0 := by
  refine ⟨{ request := .explainError code
            results := { concepts := [], patterns := [], commands := [] }
            formatted := SearchResults.format
              { concepts := [], patterns := [], commands := [] }
            confidence := calculateConfidence
              { concepts := [], patterns := [], commands := [] } },
    ?_, rfl, rfl, rfl, rfl⟩
  simp [fetch, h, bind, Except.bind, pure, Except.pure]

/-- Concrete error record for the C10 witness. -/
def c10Error : KnowledgeError :=
  { error_code := "E0382", title := "Use of moved value"
    explanation := "Value used after being moved"
    example_bad := "let s2 = s1;", example_good := "let s2 = s1.clone();"
    fix_strategies := ["Use clone()", "Use references"] }

/-- C10 witness: the theorem at a state that really contains `E0382`. -/
theorem c10_witness :
    ∃ resp, fetch (storeError c10Error emptyDB) (.explainError "E0382") = .ok resp
      ∧ resp.results.concepts = []
      ∧ resp.results.patterns = []
      ∧ resp.results.commands = []
      ∧ resp.confidence = 0.0 :=
  c10_fetch_explain_error_empty (storeError c10Error emptyDB) "E0382" c10Error rfl

/-! ## Slugify theory (C6) -/

theorem char_toNat_ofNat_lt {n : Nat} (h : n < 55296) : (Char.ofNat n).toNat = n := by
  have hv : n.isValidChar := Or.inl h
  rw [Char.ofNat, dif_pos hv]
  rfl

theorem toLower_eq (c : Char) :
    c.toLower = if c.toNat ≥ 65 ∧ c.toNat ≤ 90 then Char.ofNat (c.toNat + 32) else c :=
  rfl

theorem toLower_toLower (c : Char) : c.toLower.toLower = c.toLower := by
  rw [toLower_eq c]
  by_cases h : c.toNat ≥ 65 ∧ c.toNat ≤ 90
  · rw [if_pos h, toLower_eq, char_toNat_ofNat_lt (by omega), if_neg (by omega)]
  · rw [if_neg h, toLower_eq, if_neg h]

theorem normChar_dash : normChar '-' = '-' := by decide

theorem normChar_idem (c : Char) : normChar (normChar c) = normChar c := by
  by_cases h : (c.toLower).isAlphanum = true
  · have h1 : normChar c = c.toLower := by simp [normChar, h]
    rw [h1]
    simp [normChar, toLower_toLower, h]
  · have hf : (c.toLower).isAlphanum = false := by
      simpa using h
    have h1 : normChar c = '-' := by simp [normChar, hf]
    rw [h1]
    exact normChar_dash

theorem isEmpty_false_of_ne_nil {α : Type} {t : List α} (h : t ≠ []) :
    t.isEmpty = false := by
  cases t with
  | nil => exact absurd rfl h
  | cons a l => rfl

theorem splitDash_cons (c : Char) (rest t0 : List Char) (ts : List (List Char))
    (hsd : splitDash rest = t0 :: ts) :
    splitDash (c :: rest) =
      if c = '-' then [] :: t0 :: ts else (c :: t0) :: ts := by
  simp only [splitDash, hsd]

theorem splitDash_ne_nil (l : List Char) : splitDash l ≠ [] := by
  cases l with
  | nil => simp [splitDash]
  | cons c rest =>
    simp only [splitDash]
    cases h : splitDash rest with
    | nil => simp
    | cons t ts => by_cases hc : c = '-' <;> simp [hc]

theorem mem_splitDash {l t : List Char} (ht : t ∈ splitDash l)
    {c : Char} (hc : c ∈ t) : c ∈ l ∧ c ≠ '-' := by
  induction l generalizing t with
  | nil =>
    simp [splitDash] at ht
    subst ht
    simp at hc
  | cons b rest ih =>
    cases hsd : splitDash rest with
    | nil => exact absurd hsd (splitDash_ne_nil rest)
    | cons t0 ts =>
      rw [splitDash_cons b rest t0 ts hsd] at ht
      by_cases hb : b = '-'
      · rw [if_pos hb] at ht
        rcases List.mem_cons.mp ht with h1 | h2
        · subst h1
          simp at hc
        · have hr := ih (t := t) (by rw [hsd]; exact h2) hc
          exact ⟨List.mem_cons_of_mem b hr.1, hr.2⟩
      · rw [if_neg hb] at ht
        rcases List.mem_cons.mp ht with h1 | h2
        · subst h1
          rcases List.mem_cons.mp hc with hcb | hct0
          · subst hcb
            exact ⟨List.mem_cons_self c rest, hb⟩
          · have hr := ih (t := t0)
              (by rw [hsd]; exact List.mem_cons_self t0 ts) hct0
            exact ⟨List.mem_cons_of_mem b hr.1, hr.2⟩
        · have hr := ih (t := t)
            (by rw [hsd]; exact List.mem_cons_of_mem t0 h2) hc
          exact ⟨List.mem_cons_of_mem b hr.1, hr.2⟩

theorem splitDash_no_dash {l : List Char} (h : '-' ∉ l) : splitDash l = [l] := by
  induction l with
  | nil => rfl
  | cons c rest ih =>
    have hc : c ≠ '-' := fun hh => h (hh ▸ List.mem_cons_self c rest)
    have hr : '-' ∉ rest := fun hh => h (List.mem_cons_of_mem c hh)
    simp only [splitDash, ih hr]
    rw [if_neg (fun hh => hc hh)]

theorem splitDash_append_sep {l : List Char} (m : List Char) (h : '-' ∉ l) :
    splitDash (l ++ '-' :: m) = l :: splitDash m := by
  induction l with
  | nil =>
    rw [List.nil_append]
    cases hsd : splitDash m with
    | nil => exact absurd hsd (splitDash_ne_nil m)
    | cons t ts =>
      rw [splitDash_cons '-' m t ts hsd, if_pos rfl]

  | cons c rest ih =>
    have hc : c ≠ '-' := fun hh => h (hh ▸ List.mem_cons_self c rest)
    have hr : '-' ∉ rest := fun hh => h (List.mem_cons_of_mem c hh)
    rw [List.cons_append, splitDash_cons c _ _ _ (ih hr), if_neg hc]

/-- The shape of every token produced by `tokenizeL`: non-empty, dash-free,
and pointwise fixed by the `slugify` character map. -/
def goodToken (t : List Char) : Prop :=
  t ≠ [] ∧ '-' ∉ t ∧ ∀ c ∈ t, normChar c = c

theorem tokenizeL_good {l : List Char} : ∀ t ∈ tokenizeL l, goodToken t := by
  intro t ht
  have hmem := List.mem_filter.mp ht
  have hne : t ≠ [] := by
    intro hnil
    subst hnil
    simp at hmem
  refine ⟨hne, ?_, ?_⟩
  · intro hdash
    exact (mem_splitDash hmem.1 hdash).2 rfl
  · intro c hc
    have hcl := (mem_splitDash hmem.1 hc).1
    rcases List.mem_map.mp hcl with ⟨d, _, hd⟩
    rw [← hd, normChar_idem]

theorem map_normChar_fixed {l : List Char} (h : ∀ c ∈ l, normChar c = c) :
    l.map normChar = l := by
  induction l with
  | nil => rfl
  | cons c rest ih =>
    simp [h c (List.mem_cons_self c rest),
      ih (fun d hd => h d (List.mem_cons_of_mem c hd))]

theorem mem_joinDash {ts : List (List Char)} {c : Char} (h : c ∈ joinDash ts) :
    c = '-' ∨ ∃ t ∈ ts, c ∈ t := by
  induction ts with
  | nil => simp [joinDash] at h
  | cons t ts' ih =>
    cases ts' with
    | nil =>
      simp only [joinDash] at h
      exact .inr ⟨t, List.mem_cons_self t [], h⟩
    | cons t2 ts'' =>
      simp only [joinDash] at h
      rcases List.mem_append.mp h with h1 | h2
      · exact .inr ⟨t, List.mem_cons_self t (t2 :: ts''), h1⟩
      · rcases List.mem_cons.mp h2 with h3 | h4
        · exact .inl h3
        · rcases ih h4 with h5 | ⟨u, hu, hcu⟩
          · exact .inl h5
          · exact .inr ⟨u, List.mem_cons_of_mem t hu, hcu⟩

theorem splitFilter_joinDash {ts : List (List Char)}
    (h : ∀ t ∈ ts, t ≠ [] ∧ '-' ∉ t) :
    (splitDash (joinDash ts)).filter (fun t => !t.isEmpty) = ts := by
  induction ts with
  | nil => simp [joinDash, splitDash]
  | cons t ts' ih =>
    have ht := h t (List.mem_cons_self t ts')
    cases ts' with
    | nil =>
      simp only [joinDash]
      rw [splitDash_no_dash ht.2]
      simp [List.filter, isEmpty_false_of_ne_nil ht.1]
    | cons t2 ts'' =>
      simp only [joinDash]
      rw [splitDash_append_sep _ ht.2]
      have hrest := ih (fun u hu => h u (List.mem_cons_of_mem t hu))
      simp only [joinDash] at hrest
      rw [List.filter_cons, hrest]
      simp [ht.1]

theorem tokenizeL_joinDash {ts : List (List Char)}
    (h : ∀ t ∈ ts, goodToken t) :
    tokenizeL (joinDash ts) = ts := by
  unfold tokenizeL
  rw [map_normChar_fixed]
  · exact splitFilter_joinDash (fun t htm => ⟨(h t htm).1, (h t htm).2.1⟩)
  · intro c hc
    rcases mem_joinDash hc with h1 | ⟨t, htm, hct⟩
    · rw [h1, normChar_dash]
    · exact (h t htm).2.2 c hct

theorem tokenizeL_token {t : List Char} (h : goodToken t) : tokenizeL t = [t] := by
  unfold tokenizeL
  rw [map_normChar_fixed h.2.2, splitDash_no_dash h.2.1]
  simp [List.filter, isEmpty_false_of_ne_nil h.1]

theorem slugify_idem (s : String) : slugify (slugify s) = slugify s := by
  unfold slugify
  have : (String.mk (joinDash (tokenizeL s.data))).data =
      joinDash (tokenizeL s.data) := rfl
  rw [this, tokenizeL_joinDash tokenizeL_good]

theorem fixed_char_class {c : Char} (hfix : normChar c = c) (hne : c ≠ '-') :
    c.toLower = c ∧ c.isAlphanum = true := by
  by_cases h : (c.toLower).isAlphanum = true
  · have h1 : normChar c = c.toLower := by simp [normChar, h]
    have h2 : c.toLower = c := by rw [← h1, hfix]
    exact ⟨h2, h2 ▸ h⟩
  · have hf : (c.toLower).isAlphanum = false := by simpa using h
    have h1 : normChar c = '-' := by simp [normChar, hf]
    exact absurd (hfix.symm.trans h1) hne

/-- C6: `slugify` lowercases, maps non-alphanumeric runs to single hyphens
(every output character is a lowercase-fixed alphanumeric or a hyphen), is
idempotent on every string, and sends `"Move Semantics"` to
`"move-semantics"` and `"Error E0382"` to `"error-e0382"`. -/
theorem c6_slugify_shape_and_idem (s : String) :
    slugify "Move Semantics" = "move-semantics"
    ∧ slugify "Error E0382" = "error-e0382"
    ∧ (∀ c ∈ (slugify s).data, c.toLower = c ∧ (c = '-' ∨ c.isAlphanum = true))
    ∧ slugify (slugify s) = slugify s := by
  refine ⟨by decide, by decide, ?_, slugify_idem s⟩
  intro c hc
  have hmem : c ∈ joinDash (tokenizeL s.data) := hc
  rcases mem_joinDash hmem with h1 | ⟨t, htm, hct⟩
  · subst h1
    exact ⟨by decide, Or.inl rfl⟩
  · have hg := tokenizeL_good t htm
    have hne : c ≠ '-' := fun hh => hg.2.1 (hh ▸ hct)
    have hcl := fixed_char_class (hg.2.2 c hct) hne
    exact ⟨hcl.1, Or.inr hcl.2⟩

/-- C6 witness: the character classification at `'a'` in `slugify "A  B!"`
and idempotence at the same concrete string. -/
theorem c6_witness :
    ('a'.toLower = 'a' ∧ ('a' = '-' ∨ 'a'.isAlphanum = true))
    ∧ slugify (slugify "A  B!") = slugify "A  B!" :=
  ⟨(c6_slugify_shape_and_idem "A  B!").2.2.1 'a' (by decide),
    (c6_slugify_shape_and_idem "A  B!").2.2.2⟩

/-! ## Store-operation sequences and the index/table invariant (C1) -/

/-- One mutation of the write API quantified over by the invariant claim. -/
inductive Op where
  | storeConceptOp : KnowledgeConcept → Op
  | storePatternOp : KnowledgePattern → Op

/-- Apply one store operation. -/
def applyOp (s : DBState) : Op → DBState
  | .storeConceptOp c => storeConcept c s
  | .storePatternOp p => storePattern p s

/-- Run a sequence of store operations left to right. -/
def runOps (ops : List Op) (s : DBState) : DBState :=
  ops.foldl applyOp s

/-- A `concepts_fts` entry carries exactly the indexed columns of a
`concepts` row with the same rowid. -/
def conceptFtsAgrees (f : ConceptFtsRow) (r : ConceptRow) : Prop :=
  f.rowid = r.rowid ∧ f.topic = r.topic ∧ f.title = r.title ∧
    f.explanation = r.explanation ∧ f.tags = r.tags

/-- A `patterns_fts` entry carries exactly the indexed columns of a
`patterns` row with the same rowid. -/
def patternFtsAgrees (f : PatternFtsRow) (r : PatternRow) : Prop :=
  f.rowid = r.rowid ∧ f.name = r.name ∧ f.description = r.description ∧
    f.when_to_use = r.when_to_use

/-- The state invariant maintained by the write API: primary keys and live
rowids are unique, and every live row has an agreeing index entry. -/
structure DBInv (s : DBState) : Prop where
  cIds : (s.concepts.map ConceptRow.id).Nodup
  cRowids : (s.concepts.map ConceptRow.rowid).Nodup
  cCov : ∀ r ∈ s.concepts, ∃ f ∈ s.conceptsFts, conceptFtsAgrees f r
  pIds : (s.patterns.map PatternRow.id).Nodup
  pRowids : (s.patterns.map PatternRow.rowid).Nodup
  pCov : ∀ r ∈ s.patterns, ∃ f ∈ s.patternsFts, patternFtsAgrees f r

theorem le_foldr_max {l : List Nat} {a : Nat} (h : a ∈ l) : a ≤ l.foldr max 0 := by
  induction l with
  | nil => simp at h
  | cons b t ih =>
    rcases List.mem_cons.mp h with rfl | ht
    · exact Nat.le_max_left a (t.foldr max 0)
    · exact Nat.le_trans (ih ht) (Nat.le_max_right b (t.foldr max 0))

theorem lt_nextRowid {l : List Nat} {a : Nat} (h : a ∈ l) : a < nextRowid l :=
  Nat.lt_succ_of_le (le_foldr_max h)

theorem nodup_map_filter {α β : Type} (f : α → β) (p : α → Bool) {l : List α}
    (h : (l.map f).Nodup) : ((l.filter p).map f).Nodup :=
  List.Nodup.sublist (List.Sublist.map f (List.filter_sublist l)) h

theorem nodup_append_singleton {α : Type} {l : List α} {a : α}
    (h : l.Nodup) (ha : a ∉ l) : (l ++ [a]).Nodup := by
  rw [List.nodup_append]
  refine ⟨h, List.nodup_singleton a, ?_⟩
  intro x hx hxa
  rw [List.mem_singleton.mp hxa] at hx
  exact ha hx

theorem dbinv_storeConcept {s : DBState} (hinv : DBInv s)
    (c : KnowledgeConcept) : DBInv (storeConcept c s) := by
  constructor
  · -- concept ids stay nodup: the kept rows lost every occurrence of c.id
    simp only [storeConcept, List.map_append, List.map_cons, List.map_nil]
    refine nodup_append_singleton (nodup_map_filter _ _ hinv.cIds) ?_
    intro hmem
    rcases List.mem_map.mp hmem with ⟨r, hr, hrid⟩
    have := List.mem_filter.mp hr
    simp [hrid] at this
  · -- rowids stay nodup: the pre-allocated fresh rowid exceeds every
    -- rowid of the table, kept rows included
    simp only [storeConcept, List.map_append, List.map_cons, List.map_nil]
    refine nodup_append_singleton (nodup_map_filter _ _ hinv.cRowids) ?_
    intro hmem
    rcases List.mem_map.mp hmem with ⟨r, hr, hrid⟩
    have hfull : r.rowid ∈ s.concepts.map (fun x => x.rowid) :=
      List.mem_map_of_mem _ (List.mem_of_mem_filter hr)
    have hlt := lt_nextRowid (l := s.concepts.map (fun x => x.rowid)) hfull
    rw [hrid] at hlt
    exact absurd rfl (Nat.ne_of_lt hlt)
  · intro r hr
    rcases List.mem_append.mp hr with hkept | hnew
    · have hrs : r ∈ s.concepts := List.mem_of_mem_filter hkept
      rcases hinv.cCov r hrs with ⟨f, hf, hagr⟩
      exact ⟨f, List.mem_append_left _ hf, hagr⟩
    · rcases List.mem_singleton.mp hnew with rfl
      refine ⟨_, List.mem_append_right _ (List.mem_singleton_self _), ?_⟩
      exact ⟨rfl, rfl, rfl, rfl, rfl⟩
  · exact hinv.pIds
  · exact hinv.pRowids
  · exact hinv.pCov

theorem dbinv_storePattern {s : DBState} (hinv : DBInv s)
    (p : KnowledgePattern) : DBInv (storePattern p s) := by
  constructor
  · exact hinv.cIds
  · exact hinv.cRowids
  · exact hinv.cCov
  · simp only [storePattern, List.map_append, List.map_cons, List.map_nil]
    refine nodup_append_singleton (nodup_map_filter _ _ hinv.pIds) ?_
    intro hmem
    rcases List.mem_map.mp hmem with ⟨r, hr, hrid⟩
    have := List.mem_filter.mp hr
    simp [hrid] at this
  · simp only [storePattern, List.map_append, List.map_cons, List.map_nil]
    refine nodup_append_singleton (nodup_map_filter _ _ hinv.pRowids) ?_
    intro hmem
    rcases List.mem_map.mp hmem with ⟨r, hr, hrid⟩
    have hfull : r.rowid ∈ s.patterns.map (fun x => x.rowid) :=
      List.mem_map_of_mem _ (List.mem_of_mem_filter hr)
    have hlt := lt_nextRowid (l := s.patterns.map (fun x => x.rowid)) hfull
    rw [hrid] at hlt
    exact absurd rfl (Nat.ne_of_lt hlt)
  · intro r hr
    rcases List.mem_append.mp hr with hkept | hnew
    · have hrs : r ∈ s.patterns := List.mem_of_mem_filter hkept
      rcases hinv.pCov r hrs with ⟨f, hf, hagr⟩
      exact ⟨f, List.mem_append_left _ hf, hagr⟩
    · rcases List.mem_singleton.mp hnew with rfl
      refine ⟨_, List.mem_append_right _ (List.mem_singleton_self _), ?_⟩
      exact ⟨rfl, rfl, rfl, rfl⟩

theorem dbinv_empty : DBInv emptyDB := by
  constructor <;> simp [emptyDB]

theorem dbinv_runOps_of (ops : List Op) :
    ∀ s : DBState, DBInv s → DBInv (runOps ops s) := by
  induction ops with
  | nil => exact fun s h => h
  | cons op rest ih =>
    intro s h
    cases op with
    | storeConceptOp c => exact ih _ (dbinv_storeConcept h c)
    | storePatternOp p => exact ih _ (dbinv_storePattern h p)

theorem dbinv_runOps (ops : List Op) : DBInv (runOps ops emptyDB) :=
  dbinv_runOps_of ops emptyDB dbinv_empty

theorem find?_key_of_nodup {α : Type} (key : α → Nat) {l : List α}
    (h : (l.map key).Nodup) {r : α} (hr : r ∈ l) :
    l.find? (fun x => key x == key r) = some r := by
  induction l with
  | nil => simp at hr
  | cons b t ih =>
    simp only [List.map_cons, List.nodup_cons] at h
    rcases List.mem_cons.mp hr with rfl | hrt
    · rw [List.find?_cons_of_pos]
      simp
    · have hne : key b ≠ key r := by
        intro he
        exact h.1 (he ▸ List.mem_map_of_mem key hrt)
      rw [List.find?_cons_of_neg]
      · exact ih h.2 hrt
      · simpa using hne

theorem mem_conceptJoinRows {s : DBState}
    (hrow : (s.concepts.map ConceptRow.rowid).Nodup)
    {r : ConceptRow} (hr : r ∈ s.concepts) {f : ConceptFtsRow}
    (hf : f ∈ s.conceptsFts) (hagr : conceptFtsAgrees f r) {q : String}
    (hm : ftsMatch q (conceptFtsTokens f) = true) :
    r ∈ conceptJoinRows s q := by
  unfold conceptJoinRows
  apply List.mem_filterMap.mpr
  refine ⟨f, List.mem_filter.mpr ⟨hf, hm⟩, ?_⟩
  rw [hagr.1]
  exact find?_key_of_nodup ConceptRow.rowid hrow hr

theorem mem_patternJoinRows {s : DBState}
    (hrow : (s.patterns.map PatternRow.rowid).Nodup)
    {r : PatternRow} (hr : r ∈ s.patterns) {f : PatternFtsRow}
    (hf : f ∈ s.patternsFts) (hagr : patternFtsAgrees f r) {q : String}
    (hm : ftsMatch q (patternFtsTokens f) = true) :
    r ∈ patternJoinRows s q := by
  unfold patternJoinRows
  apply List.mem_filterMap.mpr
  refine ⟨f, List.mem_filter.mpr ⟨hf, hm⟩, ?_⟩
  rw [hagr.1]
  exact find?_key_of_nodup PatternRow.rowid hrow hr

theorem conceptJoinRows_length_le (s : DBState) (q : String) :
    (conceptJoinRows s q).length ≤ s.conceptsFts.length :=
  Nat.le_trans (List.length_filterMap_le _ _) (List.length_filter_le _ _)

theorem patternJoinRows_length_le (s : DBState) (q : String) :
    (patternJoinRows s q).length ≤ s.patternsFts.length :=
  Nat.le_trans (List.length_filterMap_le _ _) (List.length_filter_le _ _)

theorem mem_searchConceptsLimit_of {s : DBState} {q : String} {r : ConceptRow}
    (hjr : r ∈ conceptJoinRows s q) {n : Nat}
    (hn : (conceptJoinRows s q).length ≤ n) :
    rowToConceptLenient r ∈ searchConceptsLimit s q n := by
  unfold searchConceptsLimit
  rw [List.take_of_length_le hn]
  exact List.mem_map_of_mem _ hjr

theorem mem_findPatternsLimit_of {s : DBState} {q : String} {r : PatternRow}
    (hjr : r ∈ patternJoinRows s q) {n : Nat}
    (hn : (patternJoinRows s q).length ≤ n) :
    rowToPatternLenient r ∈ findPatternsLimit s q n := by
  unfold findPatternsLimit
  rw [List.take_of_length_le hn]
  exact List.mem_map_of_mem _ hjr

theorem searchConceptsLimit_sound {s : DBState} {q : String} {n : Nat}
    {c : KnowledgeConcept} (hc : c ∈ searchConceptsLimit s q n) :
    ∃ r ∈ s.concepts, c = rowToConceptLenient r := by
  unfold searchConceptsLimit at hc
  rcases List.mem_map.mp hc with ⟨r, hrt, hrc⟩
  rcases List.mem_filterMap.mp (List.mem_of_mem_take hrt) with ⟨f, _, hfind⟩
  exact ⟨r, List.mem_of_find?_eq_some hfind, hrc.symm⟩

theorem findPatternsLimit_sound {s : DBState} {q : String} {n : Nat}
    {p : KnowledgePattern} (hp : p ∈ findPatternsLimit s q n) :
    ∃ r ∈ s.patterns, p = rowToPatternLenient r := by
  unfold findPatternsLimit at hp
  rcases List.mem_map.mp hp with ⟨r, hrt, hrc⟩
  rcases List.mem_filterMap.mp (List.mem_of_mem_take hrt) with ⟨f, _, hfind⟩
  exact ⟨r, List.mem_of_find?_eq_some hfind, hrc.symm⟩

theorem ftsMatch_token {t : List Char} (hg : goodToken t)
    {toks : List (List Char)} (hmem : t ∈ toks) :
    ftsMatch (String.mk t) toks = true := by
  unfold ftsMatch
  have hdata : (String.mk t).data = t := rfl
  rw [hdata, tokenizeL_token hg]
  simp [hmem]

/-- C1 (amended): after every sequence of `store_concept`/`store_pattern`
operations from a fresh database, the count primitives equal the table
sizes, stored ids are pairwise distinct, every live table row has an
agreeing full-text index entry (same rowid, same indexed columns), every
stored record is retrievable through `search_concepts_limit` /
`find_patterns_limit` with any single token of its title (resp. name) as
the query once the limit covers the index size, and everything the FTS
searches return comes from a live table row — so the live rows are exactly
the retrievable records.  (The raw index row *set* can exceed the table:
see the counterexample.) -/
theorem c1_index_table_agreement (ops : List Op) :
    countConcepts (runOps ops emptyDB) = (runOps ops emptyDB).concepts.length
    ∧ ((runOps ops emptyDB).concepts.map ConceptRow.id).Nodup
    ∧ (∀ r ∈ (runOps ops emptyDB).concepts,
        ∃ f ∈ (runOps ops emptyDB).conceptsFts, conceptFtsAgrees f r)
    ∧ (∀ r ∈ (runOps ops emptyDB).concepts, ∀ t ∈ tokenizeL r.title.data,
        rowToConceptLenient r ∈ searchConceptsLimit (runOps ops emptyDB)
          (String.mk t) ((runOps ops emptyDB).conceptsFts.length))
    ∧ (∀ (q : String) (n : Nat) (c : KnowledgeConcept),
        c ∈ searchConceptsLimit (runOps ops emptyDB) q n →
        ∃ r ∈ (runOps ops emptyDB).concepts, c = rowToConceptLenient r)
    ∧ countPatterns (runOps ops emptyDB) = (runOps ops emptyDB).patterns.length
    ∧ ((runOps ops emptyDB).patterns.map PatternRow.id).Nodup
    ∧ (∀ r ∈ (runOps ops emptyDB).patterns,
        ∃ f ∈ (runOps ops emptyDB).patternsFts, patternFtsAgrees f r)
    ∧ (∀ r ∈ (runOps ops emptyDB).patterns, ∀ t ∈ tokenizeL r.name.data,
        rowToPatternLenient r ∈ findPatternsLimit (runOps ops emptyDB)
          (String.mk t) ((runOps ops emptyDB).patternsFts.length))
    ∧ (∀ (q : String) (n : Nat) (p : KnowledgePattern),
        p ∈ findPatternsLimit (runOps ops emptyDB) q n →
        ∃ r ∈ (runOps ops emptyDB).patterns, p = rowToPatternLenient r) := by
  have inv := dbinv_runOps ops
  refine ⟨rfl, inv.cIds, inv.cCov, ?_, ?_, rfl, inv.pIds, inv.pCov, ?_, ?_⟩
  · intro r hr t ht
    rcases inv.cCov r hr with ⟨f, hf, hagr⟩
    have hg : goodToken t := tokenizeL_good t ht
    have htt : t ∈ tokenizeL f.title.data := by
      rw [hagr.2.2.1]
      exact ht
    have hm : ftsMatch (String.mk t) (conceptFtsTokens f) = true :=
      ftsMatch_token hg (by simp [conceptFtsTokens, List.mem_append, htt])
    exact mem_searchConceptsLimit_of
      (mem_conceptJoinRows inv.cRowids hr hf hagr hm)
      (conceptJoinRows_length_le _ _)
  · intro q n c hc
    exact searchConceptsLimit_sound hc
  · intro r hr t ht
    rcases inv.pCov r hr with ⟨f, hf, hagr⟩
    have hg : goodToken t := tokenizeL_good t ht
    have htt : t ∈ tokenizeL f.name.data := by
      rw [hagr.2.1]
      exact ht
    have hm : ftsMatch (String.mk t) (patternFtsTokens f) = true :=
      ftsMatch_token hg (by simp [patternFtsTokens, List.mem_append, htt])
    exact mem_findPatternsLimit_of
      (mem_patternJoinRows inv.pRowids hr hf hagr hm)
      (patternJoinRows_length_le _ _)
  · intro q n p hp
    exact findPatternsLimit_sound hp

/-- First store of the C1 counterexample (title `"Alpha"`). -/
def c1ConceptA : KnowledgeConcept :=
  { id := "own-move", topic := "ownership", title := "Alpha"
    explanation := "", code_examples := [], common_mistakes := []
    related_concepts := [], tags := [] }

/-- Second store of the C1 counterexample: same id, title `"Beta"`. -/
def c1ConceptB : KnowledgeConcept :=
  { id := "own-move", topic := "ownership", title := "Beta"
    explanation := "", code_examples := [], common_mistakes := []
    related_concepts := [], tags := [] }

/-- C1 counterexample: re-storing an existing id leaves the full-text index
with 2 entries against 1 table row (the REPLACE-deleted row's index entry is
never removed because SQLite does not fire delete triggers during REPLACE
conflict resolution), so the index row set is not in 1:1 correspondence with
the table row set.  The orphaned entry keeps the replaced row's rowid, which
is never re-used, so the join filters it: the query `"alpha"` — a token of
the *overwritten* title only — silently returns nothing, while `"beta"`
still retrieves the live record. -/
theorem c1_counterexample :
    (runOps [.storeConceptOp c1ConceptA, .storeConceptOp c1ConceptB]
        emptyDB).conceptsFts.length = 2
    ∧ (runOps [.storeConceptOp c1ConceptA, .storeConceptOp c1ConceptB]
        emptyDB).concepts.length = 1
    ∧ searchConcepts (runOps [.storeConceptOp c1ConceptA, .storeConceptOp c1ConceptB]
        emptyDB) "alpha" = []
    ∧ (searchConcepts (runOps [.storeConceptOp c1ConceptA, .storeConceptOp c1ConceptB]
        emptyDB) "beta").map KnowledgeConcept.title = ["Beta"] := by
  refine ⟨rfl, rfl, ?_, ?_⟩ <;> decide

/-- Concept stored by the C1 witness sequence. -/
def c1WitnessConcept : KnowledgeConcept :=
  { id := "ownership-move", topic := "ownership", title := "Move Semantics"
    explanation := "moves", code_examples := [], common_mistakes := []
    related_concepts := [], tags := ["ownership"] }

/-- Pattern stored by the C1 witness sequence. -/
def c1WitnessPattern : KnowledgePattern :=
  { id := "builder", name := "Builder Pattern", description := "d"
    template := "t", when_to_use := "w", when_not_to_use := ""
    examples := [] }

/-- The C1 witness operation sequence. -/
def c1Ops : List Op :=
  [.storeConceptOp c1WitnessConcept, .storePatternOp c1WitnessPattern]

/-- The concept row produced by the C1 witness sequence. -/
def c1WitnessRow : ConceptRow :=
  { rowid := 1, id := "ownership-move", topic := "ownership"
    title := "Move Semantics", explanation := "moves"
    code_examples := .ok [], common_mistakes := .ok []
    related_concepts := .ok [], tags := .ok ["ownership"] }

/-- The pattern row produced by the C1 witness sequence. -/
def c1WitnessPatternRow : PatternRow :=
  { rowid := 1, id := "builder", name := "Builder Pattern", description := "d"
    template := "t", when_to_use := "w", when_not_to_use := ""
    examples := .ok [] }

/-- C1 witness: the amended theorem's retrieval conjuncts at the concrete
two-store sequence, with the query tokens `"move"` and `"builder"`. -/
theorem c1_witness :
    rowToConceptLenient c1WitnessRow ∈ searchConceptsLimit (runOps c1Ops emptyDB)
      (String.mk ['m', 'o', 'v', 'e']) ((runOps c1Ops emptyDB).conceptsFts.length)
    ∧ rowToPatternLenient c1WitnessPatternRow ∈ findPatternsLimit (runOps c1Ops emptyDB)
      (String.mk ['b', 'u', 'i', 'l', 'd', 'e', 'r'])
      ((runOps c1Ops emptyDB).patternsFts.length) :=
  ⟨(c1_index_table_agreement c1Ops).2.2.2.1 c1WitnessRow (by decide)
      ['m', 'o', 'v', 'e'] (by decide),
    (c1_index_table_agreement c1Ops).2.2.2.2.2.2.2.2.1 c1WitnessPatternRow
      (by decide) ['b', 'u', 'i', 'l', 'd', 'e', 'r'] (by decide)⟩

/-! ## Loader identifiers (C2) -/

theorem mem_concept_fold {ms : List Json} {r : KnowledgeConcept}
    (h : r ∈ ms.foldr
      (fun m acc => (moduleConcepts m).map (conceptRecordOf (moduleIdOf m)) ++ acc)
      []) :
    ∃ m ∈ ms, ∃ cj ∈ moduleConcepts m,
      r = conceptRecordOf (moduleIdOf m) cj := by
  induction ms with
  | nil => simp at h
  | cons m ms ih =>
    rw [List.foldr_cons] at h
    rcases List.mem_append.mp h with h1 | h2
    · rcases List.mem_map.mp h1 with ⟨cj, hcj, hr⟩
      exact ⟨m, List.mem_cons_self m ms, cj, hcj, hr.symm⟩
    · rcases ih h2 with ⟨m2, hm2, cj, hcj, hr⟩
      exact ⟨m2, List.mem_cons_of_mem m hm2, cj, hcj, hr⟩

theorem mem_docConceptRecords {doc : Json} {r : KnowledgeConcept}
    (h : r ∈ docConceptRecords doc) :
    ∃ m ∈ docModules doc, ∃ cj ∈ moduleConcepts m,
      r = conceptRecordOf (moduleIdOf m) cj :=
  mem_concept_fold h

/-- A concepts document with one module and one concept, as in the spec's
end-to-end scenario. -/
def oneConceptDoc (mid cname desc : String) : Json :=
  .obj [("modules", .arr [.obj
    [("id", .str mid),
     ("concepts", .arr [.obj
       [("name", .str cname), ("description", .str desc)]])]])]

/-- C2 (amended): every concept the loader stores has
`id = module_id ++ "-" ++ slugify(concept_name)` — the module id is used
verbatim, *not* slugified — and keeps the concept name as its title; for a
one-module document this makes `get_concept` on that id return the concept,
and since `"ownership"` is already in slug form, the spec's example
`get_concept("ownership-move-semantics")` still returns the concept titled
`"Move Semantics"`. -/
theorem c2_loader_concept_ids (doc : Json) (r : KnowledgeConcept)
    (mid cname desc : String) (hr : r ∈ docConceptRecords doc) :
    (∃ m ∈ docModules doc, ∃ cj ∈ moduleConcepts m,
      r.id = moduleIdOf m ++ "-" ++ slugify ((cj.get "name").asStr.getD "Unnamed")
      ∧ r.title = (cj.get "name").asStr.getD "Unnamed")
    ∧ (loadCoreConcepts (oneConceptDoc mid cname desc) emptyDB).2 = 1
    ∧ (∃ c, getConcept (loadCoreConcepts (oneConceptDoc mid cname desc) emptyDB).1
          (mid ++ "-" ++ slugify cname) = .ok (some c)
        ∧ c.title = cname ∧ c.topic = mid)
    ∧ getConcept (loadCoreConcepts
          (oneConceptDoc "ownership" "Move Semantics" "How moves work") emptyDB).1
        "ownership-move-semantics" =
      .ok (some { id := "ownership-move-semantics", topic := "ownership"
                  title := "Move Semantics", explanation := "How moves work"
                  code_examples := [], common_mistakes := []
                  related_concepts := []
                  tags := ["ownership", "ownership"] }) := by
  refine ⟨?_, rfl, ?_, rfl⟩
  · rcases mem_docConceptRecords hr with ⟨m, hm, cj, hcj, hrec⟩
    exact ⟨m, hm, cj, hcj, by rw [hrec]; exact ⟨rfl, rfl⟩⟩
  · refine ⟨conceptRecordOf mid (.obj [("name", .str cname), ("description", .str desc)]),
      ?_, rfl, rfl⟩
    exact getConcept_storeConcept emptyDB
      (conceptRecordOf mid (.obj [("name", .str cname), ("description", .str desc)]))

/-- C2 counterexample: for the module id `"My Module"` (not in slug form)
and concept name `"X"`, the stored id is `"My Module-x"`, not the claimed
`slugify("My Module") ++ "-" ++ slugify("X") = "my-module-x"`, and
`get_concept` on the claimed id finds nothing. -/
theorem c2_counterexample :
    ((loadCoreConcepts (oneConceptDoc "My Module" "X" "d") emptyDB).1.concepts.map
        ConceptRow.id) = ["My Module-x"]
    ∧ slugify "My Module" ++ "-" ++ slugify "X" = "my-module-x"
    ∧ ("My Module-x" : String) ≠ "my-module-x"
    ∧ getConcept (loadCoreConcepts (oneConceptDoc "My Module" "X" "d") emptyDB).1
        "my-module-x" = .ok none := by
  refine ⟨rfl, rfl, by decide, rfl⟩

/-- C2 witness: the amended theorem at the ownership/Move Semantics
document, with the membership hypothesis discharged by computation. -/
theorem c2_witness :
    (∃ m ∈ docModules (oneConceptDoc "ownership" "Move Semantics" "How moves work"),
      ∃ cj ∈ moduleConcepts m,
        (conceptRecordOf "ownership"
            (.obj [("name", .str "Move Semantics"),
                   ("description", .str "How moves work")])).id =
          moduleIdOf m ++ "-" ++ slugify ((cj.get "name").asStr.getD "Unnamed")
        ∧ (conceptRecordOf "ownership"
            (.obj [("name", .str "Move Semantics"),
                   ("description", .str "How moves work")])).title =
          (cj.get "name").asStr.getD "Unnamed")
    ∧ (loadCoreConcepts (oneConceptDoc "ownership" "Move Semantics" "How moves work")
        emptyDB).2 = 1
    ∧ (∃ c, getConcept (loadCoreConcepts
          (oneConceptDoc "ownership" "Move Semantics" "How moves work") emptyDB).1
          ("ownership" ++ "-" ++ slugify "Move Semantics") = .ok (some c)
        ∧ c.title = "Move Semantics" ∧ c.topic = "ownership")
    ∧ getConcept (loadCoreConcepts
          (oneConceptDoc "ownership" "Move Semantics" "How moves work") emptyDB).1
        "ownership-move-semantics" =
      .ok (some { id := "ownership-move-semantics", topic := "ownership"
                  title := "Move Semantics", explanation := "How moves work"
                  code_examples := [], common_mistakes := []
                  related_concepts := []
                  tags := ["ownership", "ownership"] }) :=
  c2_loader_concept_ids
    (oneConceptDoc "ownership" "Move Semantics" "How moves work")
    (conceptRecordOf "ownership"
      (.obj [("name", .str "Move Semantics"), ("description", .str "How moves work")]))
    "ownership" "Move Semantics" "How moves work"
    (List.mem_singleton_self _)

/-! ## Missing vs malformed source files (C8) -/

/-- A directory entry that does not force a parse error (missing, or
present and parseable). -/
def fileOk : Option FileContent → Bool
  | some (.malformed _) => false
  | _ => true

/-- A directory entry holding present-but-malformed text. -/
def fileBad : Option FileContent → Bool
  | some (.malformed _) => true
  | _ => false

/-- C8: `load_all_from_directory` treats the three well-known files
independently: when no present file is malformed the call succeeds, a
missing file contributes zero to its `LoadStats` field (and the loader
never counts errors), a present file contributes its own record count; a
present-but-malformed file makes the whole call return an error. -/
theorem c8_missing_skipped_malformed_fails (d : Dir) (s : DBState) :
    (fileOk d.coreConcepts = true → fileOk d.patternsIdioms = true →
      fileOk d.toolchainCargo = true →
      ∃ s2 st, loadAllFromDirectory d s = .ok (s2, st)
        ∧ (d.coreConcepts = none → st.concepts = 0)
        ∧ (d.patternsIdioms = none → st.patterns = 0)
        ∧ (d.toolchainCargo = none → st.commands = 0)
        ∧ st.errors = 0
        ∧ (∀ j, d.coreConcepts = some (.parsed j) →
            st.concepts = (docConceptRecords j).length)
        ∧ (∀ j, d.patternsIdioms = some (.parsed j) →
            st.patterns = (docPatternRecords j).length)
        ∧ (∀ j, d.toolchainCargo = some (.parsed j) →
            st.commands = (docCommandRecords j).length))
    ∧ ((fileBad d.coreConcepts = true ∨ fileBad d.patternsIdioms = true ∨
        fileBad d.toolchainCargo = true) →
      ∃ e, loadAllFromDirectory d s = .error e) := by
  constructor
  · intro h1 h2 h3
    rcases hd1 : d.coreConcepts with _ | ⟨j1 | e1⟩ <;>
      rcases hd2 : d.patternsIdioms with _ | ⟨j2 | e2⟩ <;>
        rcases hd3 : d.toolchainCargo with _ | ⟨j3 | e3⟩ <;>
          simp_all [loadAllFromDirectory, loadOptFile, fileOk, loadCoreConcepts,
            loadPatterns, loadCommands, bind, Except.bind, pure, Except.pure] <;>
            exact ⟨_, _, ⟨rfl, rfl⟩, by simp⟩
  · intro hbad
    rcases hd1 : d.coreConcepts with _ | ⟨j1 | e1⟩ <;>
      rcases hd2 : d.patternsIdioms with _ | ⟨j2 | e2⟩ <;>
        rcases hd3 : d.toolchainCargo with _ | ⟨j3 | e3⟩ <;>
          simp_all [loadAllFromDirectory, loadOptFile, fileBad, bind, Except.bind,
            pure, Except.pure]

/-- A directory for the C8 witness: patterns file present and parseable,
the other two files missing. -/
def c8DirOk : Dir :=
  { coreConcepts := none, patternsIdioms := some (.parsed (.obj []))
    toolchainCargo := none }

/-- A directory for the C8 witness: core concepts file present but
malformed. -/
def c8DirBad : Dir :=
  { coreConcepts := some (.malformed "expected value at line 1 column 1")
    patternsIdioms := none, toolchainCargo := none }

/-- C8 witness: the theorem at a directory with one well-formed present
file and two missing files, and at a directory with a malformed file. -/
theorem c8_witness :
    (∃ s2 st, loadAllFromDirectory c8DirOk emptyDB = .ok (s2, st)
      ∧ (c8DirOk.coreConcepts = none → st.concepts = 0)
      ∧ (c8DirOk.patternsIdioms = none → st.patterns = 0)
      ∧ (c8DirOk.toolchainCargo = none → st.commands = 0)
      ∧ st.errors = 0
      ∧ (∀ j, c8DirOk.coreConcepts = some (.parsed j) →
          st.concepts = (docConceptRecords j).length)
      ∧ (∀ j, c8DirOk.patternsIdioms = some (.parsed j) →
          st.patterns = (docPatternRecords j).length)
      ∧ (∀ j, c8DirOk.toolchainCargo = some (.parsed j) →
          st.commands = (docCommandRecords j).length))
    ∧ (∃ e, loadAllFromDirectory c8DirBad emptyDB = .error e) :=
  ⟨(c8_missing_skipped_malformed_fails c8DirOk emptyDB).1 rfl rfl rfl,
    (c8_missing_skipped_malformed_fails c8DirBad emptyDB).2 (Or.inl rfl)⟩

/-! ## Strict point lookups vs lenient searches on malformed blobs (C9) -/

theorem getConcept_error_of_bad {s : DBState} {i : String} {rc : ConceptRow}
    {bc : String} (hf : s.concepts.find? (fun r => r.id == i) = some rc)
    (hb : rc.common_mistakes = Blob.bad bc) :
    ∃ e, getConcept s i = .error e := by
  unfold getConcept
  rw [hf]
  cases hce : rc.code_examples with
  | ok l => exact ⟨bc, by simp [Blob.dec, hce, hb, bind, Except.bind]⟩
  | bad e => exact ⟨e, by simp [Blob.dec, hce, bind, Except.bind]⟩

theorem getPattern_error_of_bad {s : DBState} {i : String} {rp : PatternRow}
    {bp : String} (hf : s.patterns.find? (fun r => r.id == i) = some rp)
    (hb : rp.examples = Blob.bad bp) :
    ∃ e, getPattern s i = .error e := by
  unfold getPattern
  rw [hf]
  exact ⟨bp, by simp [Blob.dec, hb, bind, Except.bind]⟩

theorem getError_error_of_bad {s : DBState} {code : String} {re : ErrorRow}
    {be : String}
    (hf : s.errors.find? (fun r => r.error_code == code) = some re)
    (hb : re.fix_strategies = Blob.bad be) :
    ∃ e, getError s code = .error e := by
  unfold getError
  rw [hf]
  exact ⟨be, by simp [Blob.dec, hb, bind, Except.bind]⟩

theorem mem_searchByTopic_of {s : DBState} {rc : ConceptRow}
    (hmem : rc ∈ s.concepts) :
    rowToConceptLenient rc ∈ searchByTopic s rc.topic := by
  unfold searchByTopic
  exact List.mem_map_of_mem _ (List.mem_filter.mpr ⟨hmem, by simp⟩)

theorem mem_searchConceptsLimit_direct {s : DBState} {qc : String} {nc : Nat}
    {fc : ConceptFtsRow} {rc : ConceptRow} (hfc : fc ∈ s.conceptsFts)
    (hm : ftsMatch qc (conceptFtsTokens fc) = true)
    (hfind : s.concepts.find? (fun x => x.rowid == fc.rowid) = some rc)
    (hn : (conceptJoinRows s qc).length ≤ nc) :
    rowToConceptLenient rc ∈ searchConceptsLimit s qc nc := by
  apply mem_searchConceptsLimit_of _ hn
  unfold conceptJoinRows
  exact List.mem_filterMap.mpr ⟨fc, List.mem_filter.mpr ⟨hfc, hm⟩, hfind⟩

theorem mem_findPatternsLimit_direct {s : DBState} {qp : String} {np : Nat}
    {fp : PatternFtsRow} {rp : PatternRow} (hfp : fp ∈ s.patternsFts)
    (hm : ftsMatch qp (patternFtsTokens fp) = true)
    (hfind : s.patterns.find? (fun x => x.rowid == fp.rowid) = some rp)
    (hn : (patternJoinRows s qp).length ≤ np) :
    rowToPatternLenient rp ∈ findPatternsLimit s qp np := by
  apply mem_findPatternsLimit_of _ hn
  unfold patternJoinRows
  exact List.mem_filterMap.mpr ⟨fp, List.mem_filter.mpr ⟨hfp, hm⟩, hfind⟩

theorem mem_searchCommands_of {s : DBState} {tool kw : String} {rk : CommandRow}
    (hmem : rk ∈ s.commands) (htool : (rk.tool == tool) = true)
    (hlike : (likeContains rk.command kw || likeContains rk.description kw) = true)
    (hlen : (s.commands.filter (fun r =>
        r.tool == tool &&
          (likeContains r.command kw || likeContains r.description kw))).length ≤ 20) :
    rowToCommandLenient rk ∈ searchCommands s tool kw := by
  unfold searchCommands
  rw [List.take_of_length_le hlen]
  exact List.mem_map_of_mem _ (List.mem_filter.mpr ⟨hmem, by simp [htool, hlike]⟩)

theorem mem_getToolCommands_of {s : DBState} {rk : CommandRow}
    (hmem : rk ∈ s.commands) :
    rowToCommandLenient rk ∈ getToolCommands s rk.tool := by
  unfold getToolCommands
  exact List.mem_map_of_mem _ (List.mem_filter.mpr ⟨hmem, by simp⟩)

/-- C9: point lookups and searches disagree on malformed stored blobs: a
row whose serialized list column does not parse makes
`get_concept`/`get_pattern`/`get_error` return a decode error, while
`search_by_topic`, `search_concepts`, `find_patterns`, `search_commands`
and `get_tool_commands` silently substitute the empty list for the bad
column and still return the row as a result. -/
theorem c9_strict_get_vs_lenient_search (s : DBState)
    (rc : ConceptRow) (bc : String) (fc : ConceptFtsRow) (qc : String) (nc : Nat)
    (rp : PatternRow) (bp : String) (fp : PatternFtsRow) (qp : String) (np : Nat)
    (re : ErrorRow) (be : String) (rk : CommandRow) (bk : String)
    (tool kw : String)
    (hcf : s.concepts.find? (fun r => r.id == rc.id) = some rc)
    (hcb : rc.common_mistakes = Blob.bad bc)
    (hcmem : rc ∈ s.concepts)
    (hfc : fc ∈ s.conceptsFts)
    (hcm : ftsMatch qc (conceptFtsTokens fc) = true)
    (hcfind : s.concepts.find? (fun x => x.rowid == fc.rowid) = some rc)
    (hcn : (conceptJoinRows s qc).length ≤ nc)
    (hpf : s.patterns.find? (fun r => r.id == rp.id) = some rp)
    (hpb : rp.examples = Blob.bad bp)
    (hfp : fp ∈ s.patternsFts)
    (hpm : ftsMatch qp (patternFtsTokens fp) = true)
    (hpfind : s.patterns.find? (fun x => x.rowid == fp.rowid) = some rp)
    (hpn : (patternJoinRows s qp).length ≤ np)
    (hef : s.errors.find? (fun r => r.error_code == re.error_code) = some re)
    (heb : re.fix_strategies = Blob.bad be)
    (hkmem : rk ∈ s.commands)
    (hkb : rk.flags = Blob.bad bk)
    (hktool : (rk.tool == tool) = true)
    (hklike : (likeContains rk.command kw || likeContains rk.description kw) = true)
    (hklen : (s.commands.filter (fun r =>
        r.tool == tool &&
          (likeContains r.command kw || likeContains r.description kw))).length ≤ 20) :
    (∃ e, getConcept s rc.id = .error e)
    ∧ (∃ e, getPattern s rp.id = .error e)
    ∧ (∃ e, getError s re.error_code = .error e)
    ∧ rowToConceptLenient rc ∈ searchByTopic s rc.topic
    ∧ rowToConceptLenient rc ∈ searchConceptsLimit s qc nc
    ∧ (rowToConceptLenient rc).common_mistakes = []
    ∧ rowToPatternLenient rp ∈ findPatternsLimit s qp np
    ∧ (rowToPatternLenient rp).examples = []
    ∧ rowToCommandLenient rk ∈ searchCommands s tool kw
    ∧ rowToCommandLenient rk ∈ getToolCommands s rk.tool
    ∧ (rowToCommandLenient rk).flags = [] :=
  ⟨getConcept_error_of_bad hcf hcb,
    getPattern_error_of_bad hpf hpb,
    getError_error_of_bad hef heb,
    mem_searchByTopic_of hcmem,
    mem_searchConceptsLimit_direct hfc hcm hcfind hcn,
    by simp [rowToConceptLenient, hcb, Blob.getD],
    mem_findPatternsLimit_direct hfp hpm hpfind hpn,
    by simp [rowToPatternLenient, hpb, Blob.getD],
    mem_searchCommands_of hkmem hktool hklike hklen,
    mem_getToolCommands_of hkmem,
    by simp [rowToCommandLenient, hkb, Blob.getD]⟩

/-- C9 witness data: a concept row with a malformed `common_mistakes` blob. -/
def c9ConceptRow : ConceptRow :=
  { rowid := 1, id := "c1", topic := "ownership", title := "Bad Concept"
    explanation := "", code_examples := .ok [], common_mistakes := .bad "oops"
    related_concepts := .ok [], tags := .ok [] }

/-- C9 witness data: the concept row's index entry. -/
def c9ConceptFts : ConceptFtsRow :=
  { rowid := 1, topic := "ownership", title := "Bad Concept"
    explanation := "", tags := .ok [] }

/-- C9 witness data: a pattern row with a malformed `examples` blob. -/
def c9PatternRow : PatternRow :=
  { rowid := 1, id := "p1", name := "Bad Pattern", description := ""
    template := "", when_to_use := "", when_not_to_use := ""
    examples := .bad "oops" }

/-- C9 witness data: the pattern row's index entry. -/
def c9PatternFts : PatternFtsRow :=
  { rowid := 1, name := "Bad Pattern", description := "", when_to_use := "" }

/-- C9 witness data: an error row with a malformed `fix_strategies` blob. -/
def c9ErrorRow : ErrorRow :=
  { error_code := "E0001", title := "", explanation := ""
    example_bad := "", example_good := "", fix_strategies := .bad "oops" }

/-- C9 witness data: a command row with a malformed `flags` blob. -/
def c9CommandRow : CommandRow :=
  { id := 1, tool := "cargo", command := "cargo test"
    description := "Run tests", flags := .bad "oops", examples := .ok [] }

/-- C9 witness data: a state holding one row of each kind, each with one
malformed blob column. -/
def c9State : DBState :=
  { concepts := [c9ConceptRow], conceptsFts := [c9ConceptFts]
    patterns := [c9PatternRow], patternsFts := [c9PatternFts]
    errors := [c9ErrorRow], commands := [c9CommandRow], nextCommandId := 2 }

/-- C9 witness: the theorem at the concrete malformed-blob state. -/
theorem c9_witness :
    (∃ e, getConcept c9State c9ConceptRow.id = .error e)
    ∧ (∃ e, getPattern c9State c9PatternRow.id = .error e)
    ∧ (∃ e, getError c9State c9ErrorRow.error_code = .error e)
    ∧ rowToConceptLenient c9ConceptRow ∈ searchByTopic c9State c9ConceptRow.topic
    ∧ rowToConceptLenient c9ConceptRow ∈ searchConceptsLimit c9State "bad" 1
    ∧ (rowToConceptLenient c9ConceptRow).common_mistakes = []
    ∧ rowToPatternLenient c9PatternRow ∈ findPatternsLimit c9State "pattern" 1
    ∧ (rowToPatternLenient c9PatternRow).examples = []
    ∧ rowToCommandLenient c9CommandRow ∈ searchCommands c9State "cargo" "test"
    ∧ rowToCommandLenient c9CommandRow ∈ getToolCommands c9State c9CommandRow.tool
    ∧ (rowToCommandLenient c9CommandRow).flags = [] :=
  c9_strict_get_vs_lenient_search c9State c9ConceptRow "oops" c9ConceptFts "bad" 1
    c9PatternRow "oops" c9PatternFts "pattern" 1 c9ErrorRow "oops" c9CommandRow
    "oops" "cargo" "test" (by decide) (by decide) (by decide) (by decide)
    (by decide) (by decide) (by decide) (by decide) (by decide) (by decide)
    (by decide) (by decide) (by decide) (by decide) (by decide) (by decide)
    (by decide) (by decide) (by decide) (by decide)
